import Mathlib

set_option linter.unusedVariables false

/-!
Shallow embedding of the event log storage subsystem of
`python_modules/dagster/dagster/core/storage/event_log/base.py`, together with
the wire-format helpers it relies on (Python `json.dumps`/`json.loads`
restricted to the shapes the cursor codec produces, `base64.b64encode` /
`base64.b64decode` over ASCII byte sequences).  Python exceptions are
modelled by `Option`/`Except`: a raising call is `none` / `.error`.
-/

/-! ### Decimal integer printing and parsing

Models how a Python `int` appears inside `json.dumps` output and how
`json.loads` reads one back.  Digits are produced little-endian and reversed;
the recursion is driven by a fuel argument (`fuel = n` always suffices since
`n / 10 < n` for `n > 0`) so that every function reduces by evaluation. -/

def natToRevDigitsAux : Nat → Nat → List Nat
  | 0, _ => []
  | fuel + 1, n => if n = 0 then [] else n % 10 :: natToRevDigitsAux fuel (n / 10)

/-- Little-endian decimal digit list of a natural number (empty for zero). -/
def natToRevDigits (n : Nat) : List Nat := natToRevDigitsAux n n

/-- Value of a little-endian digit list. -/
def digitsValLE : List Nat → Nat
  | [] => 0
  | d :: ds => d + 10 * digitsValLE ds

def digitChar (d : Nat) : Char := Char.ofNat (48 + d)

def digitVal (c : Char) : Option Nat :=
  if 48 ≤ c.toNat ∧ c.toNat ≤ 57 then some (c.toNat - 48) else none

/-- Decimal representation of a natural number, as a character list. -/
def natRepr (n : Nat) : List Char :=
  if n = 0 then ['0'] else ((natToRevDigits n).reverse).map digitChar

/-- Decimal representation of an integer (Python `repr`-style, also the form
`json.dumps` emits for an `int`). -/
def intRepr (v : Int) : List Char :=
  if v < 0 then '-' :: natRepr (-v).toNat else natRepr v.toNat

def parseNatDigits (cs : List Char) : Option Nat :=
  if cs.isEmpty then none
  else cs.foldlM (fun acc c => (digitVal c).map (fun d => acc * 10 + d)) 0

def parseInt (cs : List Char) : Option Int :=
  match cs with
  | [] => none
  | c :: rest =>
    if c = '-' then (parseNatDigits rest).map (fun n => -(n : Int))
    else (parseNatDigits (c :: rest)).map (fun n => (n : Int))

/-! ### Base64

Models Python `base64.b64encode` / `base64.b64decode` over byte sequences
(bytes are `Nat` values below 256).  Decoding returns `none` where the Python
routine raises (`binascii.Error`); it is strict about the alphabet, which only
narrows the set of accepted strings. -/

def b64Char (n : Nat) : Char :=
  if n < 26 then Char.ofNat (65 + n)
  else if n < 52 then Char.ofNat (97 + (n - 26))
  else if n < 62 then Char.ofNat (48 + (n - 52))
  else if n = 62 then '+'
  else '/'

def b64Val (c : Char) : Option Nat :=
  if 65 ≤ c.toNat ∧ c.toNat ≤ 90 then some (c.toNat - 65)
  else if 97 ≤ c.toNat ∧ c.toNat ≤ 122 then some (c.toNat - 97 + 26)
  else if 48 ≤ c.toNat ∧ c.toNat ≤ 57 then some (c.toNat - 48 + 52)
  else if c = '+' then some 62
  else if c = '/' then some 63
  else none

def b64encode : List Nat → List Char
  | [] => []
  | [a] => [b64Char (a / 4), b64Char (a % 4 * 16), '=', '=']
  | [a, b] => [b64Char (a / 4), b64Char (a % 4 * 16 + b / 16), b64Char (b % 16 * 4), '=']
  | a :: b :: c :: rest =>
    b64Char (a / 4) :: b64Char (a % 4 * 16 + b / 16) ::
      b64Char (b % 16 * 4 + c / 64) :: b64Char (c % 64) :: b64encode rest

def b64decode : List Char → Option (List Nat)
  | [] => some []
  | c1 :: c2 :: c3 :: c4 :: rest =>
    if rest.isEmpty then
      if c3 = '=' ∧ c4 = '=' then do
        let s1 ← b64Val c1
        let s2 ← b64Val c2
        pure [s1 * 4 + s2 / 16]
      else if c4 = '=' then do
        let s1 ← b64Val c1
        let s2 ← b64Val c2
        let s3 ← b64Val c3
        pure [s1 * 4 + s2 / 16, s2 % 16 * 16 + s3 / 4]
      else do
        let s1 ← b64Val c1
        let s2 ← b64Val c2
        let s3 ← b64Val c3
        let s4 ← b64Val c4
        pure [s1 * 4 + s2 / 16, s2 % 16 * 16 + s3 / 4, s3 % 4 * 64 + s4]
    else do
      let s1 ← b64Val c1
      let s2 ← b64Val c2
      let s3 ← b64Val c3
      let s4 ← b64Val c4
      let tail ← b64decode rest
      pure ((s1 * 4 + s2 / 16) :: (s2 % 16 * 16 + s3 / 4) :: (s3 % 4 * 64 + s4) :: tail)
  | _ => none

/-! ### ASCII bytes

The cursor wire format only ever contains ASCII text, so the
`bytes(s, encoding="utf-8")` / `bytes.decode("utf-8")` pair is modelled on the
ASCII fragment of UTF-8 (one byte per character; decoding rejects bytes that
are not ASCII). -/

def asciiEncode (cs : List Char) : List Nat := cs.map Char.toNat

def asciiDecode (bs : List Nat) : Option (List Char) :=
  bs.mapM (fun b => if b < 128 then some (Char.ofNat b) else none)

/-! ### Cursor data model

Embeds `RunShardedEventsCursor`, `EventLogCursorType` and `EventLogCursor`
from `base.py`.  `check.invariant` failures (Python `CheckError`, the spec's
`InvariantViolation`) are an `Except.error`. -/

/-- Error kinds named by the spec (section 7). -/
inductive DagsterError where
  | invariantViolation
  | invalidFilter
  | malformedCursor
deriving DecidableEq

/-- The `RunShardedEventsCursor` type: pairs an id-based event log cursor with a
timestamp-based run cursor (`run_updated_after`, a `datetime` modelled as an
integer timestamp). -/
structure RunShardedEventsCursor where
  id : Int
  run_updated_after : Int
deriving DecidableEq

inductive EventLogCursorType where
  | OFFSET
  | STORAGE_ID
deriving DecidableEq

/-- The `value` of the `Enum` member, e.g. `EventLogCursorType.OFFSET.value`. -/
def EventLogCursorType.toTag : EventLogCursorType → String
  | .OFFSET => "OFFSET"
  | .STORAGE_ID => "STORAGE_ID"

/-- The `Enum` constructor `EventLogCursorType(raw["type"])`; an unrecognized
tag raises `ValueError` in Python, modelled as `none`. -/
def EventLogCursorType.ofTag (s : String) : Option EventLogCursorType :=
  if s = "OFFSET" then some .OFFSET
  else if s = "STORAGE_ID" then some .STORAGE_ID
  else none

/-- The `EventLogCursor` type: representation of an event record cursor. -/
structure EventLogCursor where
  cursor_type : EventLogCursorType
  value : Int
deriving DecidableEq

def EventLogCursor.is_offset_cursor (c : EventLogCursor) : Bool :=
  c.cursor_type = EventLogCursorType.OFFSET

def EventLogCursor.is_id_cursor (c : EventLogCursor) : Bool :=
  c.cursor_type = EventLogCursorType.STORAGE_ID

/-- Accessor `offset()`: `check.invariant(self.cursor_type == EventLogCursorType.OFFSET)`
then `return max(0, int(self.value))`. -/
def EventLogCursor.offset (c : EventLogCursor) : Except DagsterError Int :=
  if c.cursor_type = EventLogCursorType.OFFSET then .ok (max 0 c.value)
  else .error .invariantViolation

/-- Accessor `storage_id()`: `check.invariant(self.cursor_type == EventLogCursorType.STORAGE_ID)`
then `return int(self.value)`. -/
def EventLogCursor.storage_id (c : EventLogCursor) : Except DagsterError Int :=
  if c.cursor_type = EventLogCursorType.STORAGE_ID then .ok c.value
  else .error .invariantViolation

def EventLogCursor.from_offset (offset : Int) : EventLogCursor :=
  ⟨EventLogCursorType.OFFSET, offset⟩

def EventLogCursor.from_storage_id (storage_id : Int) : EventLogCursor :=
  ⟨EventLogCursorType.STORAGE_ID, storage_id⟩

/-! ### Cursor wire format

`to_string` is `base64.b64encode(bytes(json.dumps({"type": ..., "value": ...}),
encoding="utf-8"))`; `parse` is the inverse pipeline ending in the `Enum`
constructor.  `json.dumps` of that two-key dict (default separators) is the
exact text `{"type": "<tag>", "value": <int>}`; `json.loads` is modelled as a
reader of that canonical shape (accepting an arbitrary tag string and integer
value), which only narrows the set of accepted strings. -/

def jsonHeadChars : List Char := "\x7b\"type\": \"".data

def jsonMidChars : List Char := "\", \"value\": ".data

def closeBraceChar : Char := '\x7d'

def jsonDumpsTagValue (tag : String) (v : Int) : List Char :=
  jsonHeadChars ++ tag.data ++ jsonMidChars ++ intRepr v ++ [closeBraceChar]

def EventLogCursor.to_string (c : EventLogCursor) : String :=
  String.mk (b64encode (asciiEncode (jsonDumpsTagValue c.cursor_type.toTag c.value)))

def stripPrefixChars : List Char → List Char → Option (List Char)
  | [], cs => some cs
  | _ :: _, [] => none
  | p :: ps, c :: cs => if c = p then stripPrefixChars ps cs else none

/-- Reads back the canonical `json.dumps` form of `{"type": ..., "value": ...}`:
the tag is every character up to the closing quote, the value every character
up to the closing brace. -/
def parseTagValue (cs : List Char) : Option (String × Int) := do
  let cs1 ← stripPrefixChars jsonHeadChars cs
  let tagChars := cs1.takeWhile (fun c => c != '"')
  let cs2 := cs1.dropWhile (fun c => c != '"')
  let cs3 ← stripPrefixChars jsonMidChars cs2
  let numChars := cs3.takeWhile (fun c => c != closeBraceChar)
  match cs3.dropWhile (fun c => c != closeBraceChar) with
  | [c] =>
    if c = closeBraceChar then do
      let v ← parseInt numChars
      pure (String.mk tagChars, v)
    else none
  | _ => none

/-- The failure-prone stages of `EventLogCursor.parse` before the `Enum` tag
lookup: `json.loads(base64.b64decode(cursor_str).decode("utf-8"))`. -/
def decodeStages (s : String) : Option (String × Int) := do
  let bytes ← b64decode s.data
  let chars ← asciiDecode bytes
  parseTagValue chars

/-- Static method `EventLogCursor.parse`; any Python exception along the pipeline is `none`. -/
def EventLogCursor.parse (s : String) : Option EventLogCursor := do
  let tv ← decodeStages s
  let t ← EventLogCursorType.ofTag tv.1
  pure ⟨t, tv.2⟩

/-- Modelled from the spec: the spec-level `decode` operation classifies every
failure of `EventLogCursor.parse` as the `MalformedCursor` error kind (the
Python method simply lets the underlying exception propagate to the caller). -/
def decodeCursor (s : String) : Except DagsterError EventLogCursor :=
  match EventLogCursor.parse s with
  | some c => .ok c
  | none => .error .malformedCursor

/-! ### Event record data model

`EventLogRecord`, `EventLogConnection` and `EventRecordsFilter` are embedded
from `base.py`.  The entry/payload/asset types they mention live outside this
subsystem's sources and are modelled from the spec's data-model section. -/

/-- Modelled from the spec: the enumerated event kind
(`dagster.core.events.DagsterEventType` is outside this subsystem's sources);
a representative subset of variants suffices for the claims. -/
inductive DagsterEventType where
  | STEP_START
  | STEP_SUCCESS
  | STEP_FAILURE
  | ASSET_MATERIALIZATION
  | RUN_START
  | RUN_SUCCESS
deriving DecidableEq

/-- Modelled from the spec: the asset identifier
(`dagster.core.definitions.events.AssetKey`, outside this subsystem's
sources): a structured key, a list of path components. -/
structure AssetKey where
  path : List String
deriving DecidableEq

/-- Modelled from the spec: the event-specific payload of an entry
(`DagsterEvent`), reduced to the fields this subsystem reads: the event kind,
the optional step identifier, and for materialization events the asset key
and partition label. -/
structure DagsterEvent where
  event_type : DagsterEventType
  step_key : Option String
  asset_key : Option AssetKey
  partition : Option String
deriving DecidableEq

/-- Modelled from the spec: an `EventLogEntry`, the immutable record of one
occurrence during run execution — run identifier, timestamp, and an optional
structured `DagsterEvent` payload (absent for plain log lines). -/
structure EventLogEntry where
  run_id : String
  timestamp : Int
  dagster_event : Option DagsterEvent
deriving DecidableEq

def EventLogEntry.is_dagster_event (e : EventLogEntry) : Bool :=
  e.dagster_event.isSome

def EventLogEntry.get_dagster_event (e : EventLogEntry) : Option DagsterEvent :=
  e.dagster_event

/-- The `EventLogRecord` type: pairs a storage-assigned integer id with an entry. -/
structure EventLogRecord where
  storage_id : Int
  event_log_entry : EventLogEntry
deriving DecidableEq

/-- The `EventLogConnection` type: the page-result envelope. -/
structure EventLogConnection where
  records : List EventLogRecord
  cursor : String
  has_more : Bool
deriving DecidableEq

/-- The `EventRecordsFilter` type: the conjunctive predicate over the log.  The
`after_cursor`/`before_cursor` fields are `Union[int, RunShardedEventsCursor]`;
timestamps are Python floats, modelled as integers (no claim exercises their
numeric behavior). -/
structure EventRecordsFilter where
  event_type : Option DagsterEventType
  asset_key : Option AssetKey
  asset_partitions : Option (List String)
  after_cursor : Option (Int ⊕ RunShardedEventsCursor)
  before_cursor : Option (Int ⊕ RunShardedEventsCursor)
  after_timestamp : Option Int
  before_timestamp : Option Int
deriving DecidableEq

/-- Constructor `EventRecordsFilter.__new__`: validates argument types, emits a
deprecation warning (`warnings.warn`) when no event type is supplied — Python
enum members are truthy, so `not event_type` is exactly "no event type" — and
builds the tuple with the fields exactly as given.  Returns the constructed
filter together with the list of warning messages issued. -/
def mkEventRecordsFilter (event_type : Option DagsterEventType := none)
    (asset_key : Option AssetKey := none)
    (asset_partitions : Option (List String) := none)
    (after_cursor : Option (Int ⊕ RunShardedEventsCursor) := none)
    (before_cursor : Option (Int ⊕ RunShardedEventsCursor) := none)
    (after_timestamp : Option Int := none)
    (before_timestamp : Option Int := none) :
    EventRecordsFilter × List String :=
  (⟨event_type, asset_key, asset_partitions, after_cursor, before_cursor,
      after_timestamp, before_timestamp⟩,
    if event_type.isNone then
      ["The use of EventRecordsFilter without an event type is deprecated and will begin erroring starting in 0.15.0"]
    else [])

/-! ### The store's concrete read paths

`get_records_for_run` is abstract in `base.py`; the concrete implementation is
passed as a function argument `grfr` wherever a default method delegates to
it. -/

/-- Method `EventLogStorage.get_logs_for_run`: legacy support for integer offset
cursors — `if isinstance(cursor, int): cursor =
EventLogCursor.from_offset(cursor + 1).to_string()` — then delegation to
`get_records_for_run` and projection of each record to its entry. -/
def get_logs_for_run
    (grfr : String → Option String → Option (List DagsterEventType) → Option Int →
      EventLogConnection)
    (run_id : String) (cursor : Option (Int ⊕ String) := none)
    (of_type : Option (List DagsterEventType) := none) (limit : Option Int := none) :
    List EventLogEntry :=
  let cursorStr : Option String :=
    match cursor with
    | some (.inl n) => some ((EventLogCursor.from_offset (n + 1)).to_string)
    | some (.inr s) => some s
    | none => none
  ((grfr run_id cursorStr of_type limit).records).map (fun r => r.event_log_entry)

/-- Method `EventLogStorage.get_stats_for_run`: delegates the full run log to the
aggregation `build_run_stats_from_events` (outside this subsystem's sources,
taken as the argument `build`). -/
def get_stats_for_run {β : Type}
    (build : String → List EventLogEntry → β)
    (grfr : String → Option String → Option (List DagsterEventType) → Option Int →
      EventLogConnection)
    (run_id : String) : β :=
  build run_id (get_logs_for_run grfr run_id none none none)

/-- The per-event test in `get_step_stats_for_run`'s list comprehension:
`event.is_dagster_event and event.get_dagster_event().step_key in step_keys`
(a `None` step key is never in a list of strings). -/
def stepKeysPred (step_keys : List String) (e : EventLogEntry) : Bool :=
  e.is_dagster_event &&
    (match e.get_dagster_event with
      | some ev =>
        match ev.step_key with
        | some k => k ∈ step_keys
        | none => false
      | none => false)

/-- Method `EventLogStorage.get_step_stats_for_run`: fetches the full run log,
restricts it to the given step keys when `if step_keys:` is truthy (a `None`
or empty sequence is falsy), and delegates to
`build_run_step_stats_from_events` (outside this subsystem's sources, taken as
the argument `build`). -/
def get_step_stats_for_run {β : Type}
    (build : String → List EventLogEntry → β)
    (grfr : String → Option String → Option (List DagsterEventType) → Option Int →
      EventLogConnection)
    (run_id : String) (step_keys : Option (List String) := none) : β :=
  let logs := get_logs_for_run grfr run_id none none none
  let logs :=
    match step_keys with
    | some (k :: ks) => logs.filter (stepKeysPred (k :: ks))
    | _ => logs
  build run_id logs

/-- The step-stats aggregation as claim C8 words it: when `step_keys` is
given, the log is first restricted to events whose step identifier is in
`step_keys` before aggregating. -/
def get_step_stats_claimed {β : Type}
    (build : String → List EventLogEntry → β)
    (grfr : String → Option String → Option (List DagsterEventType) → Option Int →
      EventLogConnection)
    (run_id : String) (step_keys : Option (List String)) : β :=
  let logs := get_logs_for_run grfr run_id none none none
  let logs :=
    match step_keys with
    | some ks => logs.filter (stepKeysPred ks)
    | none => logs
  build run_id logs

/-! ### The general predicate query (spec: `query_filtered`) -/

/-- Stable insertion into a list sorted by `le` (used to model Python's
stable `sorted`). -/
def insertByLe {α : Type} (le : α → α → Bool) (a : α) : List α → List α
  | [] => [a]
  | b :: bs => if le b a then b :: insertByLe le a bs else a :: b :: bs

/-- Stable insertion sort by `le`. -/
def sortByLe {α : Type} (le : α → α → Bool) (l : List α) : List α :=
  l.foldl (fun acc x => insertByLe le x acc) []

/-- Modelled from the spec: the conjunctive predicate an `EventRecordsFilter`
denotes — event type, asset key, partition membership, storage-id cursor
bounds (for a `RunShardedEventsCursor` the id field is used as the bound) and
timestamp bounds (`after` exclusive, `before` exclusive). -/
def eventRecordsFilterPred (f : EventRecordsFilter) (r : EventLogRecord) : Bool :=
  (match f.event_type with
    | some t =>
      match r.event_log_entry.dagster_event with
      | some e => e.event_type = t
      | none => false
    | none => true)
  && (match f.asset_key with
    | some k =>
      match r.event_log_entry.dagster_event with
      | some e => e.asset_key = some k
      | none => false
    | none => true)
  && (match f.asset_partitions with
    | some ps =>
      match r.event_log_entry.dagster_event with
      | some e =>
        match e.partition with
        | some p => p ∈ ps
        | none => false
      | none => false
    | none => true)
  && (match f.after_cursor with
    | some (.inl n) => n < r.storage_id
    | some (.inr rc) => rc.id < r.storage_id
    | none => true)
  && (match f.before_cursor with
    | some (.inl n) => r.storage_id < n
    | some (.inr rc) => r.storage_id < rc.id
    | none => true)
  && (match f.after_timestamp with
    | some ts => ts < r.event_log_entry.timestamp
    | none => true)
  && (match f.before_timestamp with
    | some ts => r.event_log_entry.timestamp < ts
    | none => true)

/-- Ordering of a query result page: descending by storage id (most recent
first) unless `ascending` is set. -/
def orderRecords (ascending : Bool) (recs : List EventLogRecord) : List EventLogRecord :=
  if ascending then sortByLe (fun a b => a.storage_id ≤ b.storage_id) recs
  else sortByLe (fun a b => b.storage_id ≤ a.storage_id) recs

def applyRecordLimit (recs : List EventLogRecord) : Option Int → List EventLogRecord
  | some m => recs.take m.toNat
  | none => recs

/-- Modelled from the spec: `EventLogStorage.get_event_records` (the spec's
`query_filtered`) is abstract in `base.py`; per spec section 4.2 it is a
general predicate query across the whole log, ordered by storage id, and
"when `filter.asset_partitions` is set without `filter.asset_key`, this is a
caller error — fails with `InvalidFilter`".  The stored log is the argument
`log`. -/
def get_event_records (log : List EventLogRecord)
    (event_records_filter : Option EventRecordsFilter := none)
    (limit : Option Int := none) (ascending : Bool := false) :
    Except DagsterError (List EventLogRecord) :=
  match event_records_filter with
  | some f =>
    if f.asset_partitions.isSome ∧ f.asset_key.isNone then .error .invalidFilter
    else
      .ok (applyRecordLimit (orderRecords ascending (log.filter (eventRecordsFilterPred f))) limit)
  | none => .ok (applyRecordLimit (orderRecords ascending log) limit)

/-! ### Concrete backends used as witnesses -/

/-- A backend whose `get_records_for_run` returns an empty page. -/
def grfrEmpty : String → Option String → Option (List DagsterEventType) → Option Int →
    EventLogConnection :=
  fun _ _ _ _ => ⟨[], "", false⟩

/-- An entry carrying a step event for step `"s"`. -/
def entryWithStep : EventLogEntry :=
  ⟨"r", 0, some ⟨DagsterEventType.STEP_START, some "s", none, none⟩⟩

/-- A backend whose `get_records_for_run` returns one record, for step `"s"`. -/
def grfrOne : String → Option String → Option (List DagsterEventType) → Option Int →
    EventLogConnection :=
  fun _ _ _ _ => ⟨[⟨1, entryWithStep⟩], "", false⟩

/-! ### Asset keys and the default `get_asset_keys`

`AssetKey` itself (string form, `from_db_string`) lives outside this
subsystem's sources and is modelled from the spec; the default
`get_asset_keys` body is embedded from `base.py` stage by stage. -/

/-- Lexicographic order on character lists (by code point), the order of
Python string comparison. -/
def charListLe : List Char → List Char → Bool
  | [], _ => true
  | _ :: _, [] => false
  | a :: as, b :: bs =>
    if a.toNat < b.toNat then true
    else if b.toNat < a.toNat then false
    else charListLe as bs

/-- Modelled from the spec: the asset key's string form (its db string, the
JSON dump of the path), used as the lexicographic sort key. -/
def AssetKey.toDbChars (k : AssetKey) : List Char :=
  '[' :: (List.intercalate [',', ' '] (k.path.map (fun p => '"' :: (p.data ++ ['"'])))) ++ [']']

def isIdentChar (c : Char) : Bool := c.isAlphanum || c = '_'

/-- Modelled from the spec: the legacy asset-key format — the string split on
every non-identifier character, empty pieces dropped. -/
def splitNonIdentAux : List Char → List Char → List (List Char)
  | [], acc => if acc.isEmpty then [] else [acc.reverse]
  | c :: cs, acc =>
    if isIdentChar c then splitNonIdentAux cs (c :: acc)
    else if acc.isEmpty then splitNonIdentAux cs []
    else acc.reverse :: splitNonIdentAux cs []

def parse_asset_key_string (s : String) : List String :=
  (splitNonIdentAux s.data []).map String.mk

/-- Reads one double-quoted string (no escape handling; the canonical db
strings of the keys the claims touch contain none). -/
def parseQuotedItem : List Char → Option (String × List Char)
  | '"' :: rest =>
    (match rest.dropWhile (fun c => c != '"') with
      | '"' :: rest2 => some (String.mk (rest.takeWhile (fun c => c != '"')), rest2)
      | _ => none)
  | _ => none

/-- Reads the items of a JSON list of strings after the opening bracket; the
fuel argument (the input length suffices) keeps the recursion structural. -/
def parseStringListItems : Nat → List Char → Option (List String)
  | 0, _ => none
  | fuel + 1, cs => do
    let sr ← parseQuotedItem cs
    match sr.2 with
    | ']' :: rest2 => if rest2.isEmpty then some [sr.1] else none
    | ',' :: ' ' :: rest2 => do
      let more ← parseStringListItems fuel rest2
      pure (sr.1 :: more)
    | _ => none

def parseJsonStringList (cs : List Char) : Option (List String) :=
  match cs with
  | '[' :: ']' :: rest => if rest.isEmpty then some [] else none
  | '[' :: rest => parseStringListItems rest.length rest
  | _ => none

/-- Modelled from the spec: `AssetKey.from_db_string` (outside this
subsystem's sources) — `None` for an empty string; a string starting with `[`
is read as the JSON list of path components (falling back to the legacy
format when that fails); any other string is split as the legacy format. -/
def AssetKey.from_db_string (s : String) : Option AssetKey :=
  if s = "" then none
  else
    match s.data with
    | '[' :: _ =>
      (match parseJsonStringList s.data with
        | some ps => some ⟨ps⟩
        | none => some ⟨parse_asset_key_string s⟩)
    | _ => some ⟨parse_asset_key_string s⟩

/-- Stage `sorted(self.all_asset_keys(), key=str)`: the stable sort of all keys by
their string form. -/
def sortedAssetKeys (all_asset_keys : List AssetKey) : List AssetKey :=
  sortByLe (fun a b => charListLe a.toDbChars b.toDbChars) all_asset_keys

/-- Stage `if prefix: asset_keys = [k for k in asset_keys if k.path[:len(prefix)] ==
prefix]` — applied only when the prefix argument is truthy (a `None` or empty
list is falsy; `px` stands for the Python parameter `prefix`). -/
def applyPrefixFilter (px : Option (List String)) (keys : List AssetKey) : List AssetKey :=
  match px with
  | some (p :: ps) => keys.filter (fun k => k.path.take (p :: ps).length = (p :: ps))
  | _ => keys

/-- Stage `if cursor:` — decode the cursor with `AssetKey.from_db_string`; when the
decoded key is in the list, drop every key up to and including it
(`asset_keys[idx + 1:]` after `idx = asset_keys.index(cursor_asset)`). -/
def applyCursorSkip (cursor : Option String) (keys : List AssetKey) : List AssetKey :=
  match cursor with
  | some s =>
    if s = "" then keys
    else
      match AssetKey.from_db_string s with
      | some ca =>
        if ca ∈ keys then keys.drop (keys.findIdx (fun k => k = ca) + 1) else keys
      | none => keys
  | none => keys

/-- Stage `if limit: asset_keys = asset_keys[:limit]` — `0` is falsy, and a Python
slice with a negative bound counts from the end. -/
def applyKeyLimit (limit : Option Int) (keys : List AssetKey) : List AssetKey :=
  match limit with
  | some m =>
    if m = 0 then keys
    else if m < 0 then keys.take ((keys.length : Int) + m).toNat
    else keys.take m.toNat
  | none => keys

/-- Method `EventLogStorage.get_asset_keys`: the default in-memory implementation —
sort all keys by string form, filter by path prefix, skip past the cursor
key, truncate to the limit, each stage subject to Python truthiness of its
argument.  `all_asset_keys` is abstract in `base.py`; its result is the first
argument. -/
def get_asset_keys (all_asset_keys : List AssetKey)
    (px : Option (List String) := none) (limit : Option Int := none)
    (cursor : Option String := none) : List AssetKey :=
  applyKeyLimit limit
    (applyCursorSkip cursor (applyPrefixFilter px (sortedAssetKeys all_asset_keys)))

/-- The prefix stage exactly as claim C7 words it: filter whenever a prefix
is given. -/
def claimedPrefixStage (px : Option (List String)) (keys : List AssetKey) : List AssetKey :=
  match px with
  | some p => keys.filter (fun k => k.path.take p.length = p)
  | none => keys

/-- The cursor stage exactly as claim C7 words it: drop through the cursor
key whenever the cursor decodes to a key of the list. -/
def claimedCursorStage (cursor : Option String) (keys : List AssetKey) : List AssetKey :=
  match cursor with
  | some s =>
    (match AssetKey.from_db_string s with
      | some ca =>
        if ca ∈ keys then keys.drop (keys.findIdx (fun k => k = ca) + 1) else keys
      | none => keys)
  | none => keys

/-- The limit stage exactly as claim C7 words it: truncate to at most `limit`
keys whenever a limit is given. -/
def claimedLimitStage (limit : Option Int) (keys : List AssetKey) : List AssetKey :=
  match limit with
  | some m => keys.take m.toNat
  | none => keys

/-- The `get_asset_keys` pipeline exactly as claim C7 words it. -/
def get_asset_keys_claimed (all_asset_keys : List AssetKey)
    (px : Option (List String)) (limit : Option Int) (cursor : Option String) :
    List AssetKey :=
  claimedLimitStage limit
    (claimedCursorStage cursor (claimedPrefixStage px (sortedAssetKeys all_asset_keys)))

/-! ### Proofs

Helper lemmas first, then for each claim its theorem (and, where the claim
fails as stated, the counterexample) and the witness evaluations. -/

theorem digitsValLE_natToRevDigitsAux :
    ∀ fuel n, n ≤ fuel → digitsValLE (natToRevDigitsAux fuel n) = n := by
  intro fuel
  induction fuel with
  | zero => intro n h; interval_cases n; rfl
  | succ f ih =>
    intro n h
    by_cases hn : n = 0
    · subst hn; simp [natToRevDigitsAux, digitsValLE]
    · have hdiv : n / 10 ≤ f := by omega
      simp only [natToRevDigitsAux, hn, if_false, digitsValLE, ih _ hdiv]
      omega

theorem digitsValLE_natToRevDigits (n : Nat) :
    digitsValLE (natToRevDigits n) = n :=
  digitsValLE_natToRevDigitsAux n n (Nat.le_refl n)

theorem natToRevDigitsAux_lt_ten :
    ∀ fuel n d, d ∈ natToRevDigitsAux fuel n → d < 10 := by
  intro fuel
  induction fuel with
  | zero => intro n d h; simp [natToRevDigitsAux] at h
  | succ f ih =>
    intro n d h
    by_cases hn : n = 0
    · subst hn; simp [natToRevDigitsAux] at h
    · simp only [natToRevDigitsAux, hn, if_false, List.mem_cons] at h
      rcases h with h | h
      · omega
      · exact ih _ _ h

theorem digitChar_toNat {d : Nat} (h : d < 10) : (digitChar d).toNat = 48 + d := by
  interval_cases d <;> rfl

theorem digitVal_digitChar {d : Nat} (h : d < 10) : digitVal (digitChar d) = some d := by
  interval_cases d <;> rfl

theorem parse_foldlM_digits (ds : List Nat) (h : ∀ d ∈ ds, d < 10) :
    ∀ a, (ds.map digitChar).foldlM
        (fun acc c => (digitVal c).map (fun d => acc * 10 + d)) a
      = some (ds.foldl (fun acc d => acc * 10 + d) a) := by
  induction ds with
  | nil => intro a; rfl
  | cons d ds ih =>
    intro a
    have hd : d < 10 := h d (List.mem_cons_self d ds)
    have hds : ∀ x ∈ ds, x < 10 := fun x hx => h x (List.mem_cons_of_mem d hx)
    simp only [List.map_cons, List.foldlM, digitVal_digitChar hd, Option.map_some',
      Option.bind_eq_bind, Option.some_bind, List.foldl]
    exact ih hds (a * 10 + d)

theorem foldl_reverse_digits (ds : List Nat) :
    ∀ a, (ds.reverse).foldl (fun acc d => acc * 10 + d) a
      = a * 10 ^ ds.length + digitsValLE ds := by
  induction ds with
  | nil => intro a; simp [digitsValLE]
  | cons d ds ih =>
    intro a
    simp only [List.reverse_cons, List.foldl_append, List.foldl, ih a,
      digitsValLE, List.length_cons]
    ring

theorem natToRevDigits_ne_nil {n : Nat} (h : n ≠ 0) : natToRevDigits n ≠ [] := by
  cases n with
  | zero => exact absurd rfl h
  | succ m => simp [natToRevDigits, natToRevDigitsAux]

theorem parseNatDigits_natRepr (n : Nat) : parseNatDigits (natRepr n) = some n := by
  by_cases hn : n = 0
  · subst hn; rfl
  · have hne : natToRevDigits n ≠ [] := natToRevDigits_ne_nil hn
    have hlt : ∀ d ∈ (natToRevDigits n).reverse, d < 10 := by
      intro d hd
      exact natToRevDigitsAux_lt_ten n n d (List.mem_reverse.mp hd)
    have hmapne : ((natToRevDigits n).reverse).map digitChar ≠ [] := by
      simp [hne]
    unfold natRepr
    rw [if_neg hn]
    unfold parseNatDigits
    rw [if_neg (by simpa [List.isEmpty_iff] using hmapne)]
    rw [parse_foldlM_digits _ hlt 0, foldl_reverse_digits]
    simp [digitsValLE_natToRevDigits]

theorem natRepr_isDigit {n : Nat} {c : Char} (h : c ∈ natRepr n) :
    48 ≤ c.toNat ∧ c.toNat ≤ 57 := by
  unfold natRepr at h
  by_cases hn : n = 0
  · rw [if_pos hn] at h
    simp only [List.mem_singleton] at h
    subst h; decide
  · rw [if_neg hn] at h
    rcases List.mem_map.mp h with ⟨d, hd, rfl⟩
    have : d < 10 := natToRevDigitsAux_lt_ten n n d (List.mem_reverse.mp hd)
    rw [digitChar_toNat this]
    omega

theorem natRepr_ne_nil (n : Nat) : natRepr n ≠ [] := by
  unfold natRepr
  by_cases hn : n = 0
  · rw [if_pos hn]; simp
  · rw [if_neg hn]
    simpa using natToRevDigits_ne_nil hn

theorem parseInt_intRepr (v : Int) : parseInt (intRepr v) = some v := by
  by_cases hv : v < 0
  · unfold intRepr
    rw [if_pos hv]
    have hcast : ((-v).toNat : Int) = -v := Int.toNat_of_nonneg (by omega)
    simp [parseInt, parseNatDigits_natRepr, hcast]
  · unfold intRepr
    rw [if_neg hv]
    rcases hrep : natRepr v.toNat with _ | ⟨c, rest⟩
    · exact absurd hrep (natRepr_ne_nil _)
    · have hdig : 48 ≤ c.toNat ∧ c.toNat ≤ 57 :=
        natRepr_isDigit (hrep ▸ List.mem_cons_self c rest)
      have hne : c ≠ '-' := by
        intro hc
        subst hc
        revert hdig
        decide
      simp only [parseInt]
      rw [if_neg hne, ← hrep, parseNatDigits_natRepr]
      have : (v.toNat : Int) = v := Int.toNat_of_nonneg (by omega)
      simp [this]

theorem b64Val_b64Char : ∀ n, n < 64 → b64Val (b64Char n) = some n := by decide

theorem b64Char_ne_pad : ∀ n, n < 64 → b64Char n ≠ '=' := by decide

theorem b64encode_ne_nil : ∀ bs : List Nat, bs ≠ [] → b64encode bs ≠ [] := by
  intro bs h
  match bs with
  | [a] => simp [b64encode]
  | [a, b] => simp [b64encode]
  | a :: b :: c :: rest => simp [b64encode]

theorem b64_roundtrip :
    ∀ bs : List Nat, (∀ b ∈ bs, b < 256) → b64decode (b64encode bs) = some bs := by
  intro bs
  induction bs using b64encode.induct with
  | case1 => intro h; rfl
  | case2 a =>
    intro h
    have ha : a < 256 := h a (by simp)
    have e1 := b64Val_b64Char _ (show a / 4 < 64 by omega)
    have e2 := b64Val_b64Char _ (show a % 4 * 16 < 64 by omega)
    simp [b64encode, b64decode, e1, e2]
    omega
  | case3 a b =>
    intro h
    have ha : a < 256 := h a (by simp)
    have hb : b < 256 := h b (by simp)
    have e1 := b64Val_b64Char _ (show a / 4 < 64 by omega)
    have e2 := b64Val_b64Char _ (show a % 4 * 16 + b / 16 < 64 by omega)
    have e3 := b64Val_b64Char _ (show b % 16 * 4 < 64 by omega)
    have hne3 := b64Char_ne_pad _ (show b % 16 * 4 < 64 by omega)
    simp [b64encode, b64decode, e1, e2, e3, hne3]
    omega
  | case4 a b c rest ih =>
    intro h
    have ha : a < 256 := h a (by simp)
    have hb : b < 256 := h b (by simp)
    have hc : c < 256 := h c (by simp)
    have hrest : ∀ x ∈ rest, x < 256 := by
      intro x hx
      exact h x (by simp [hx])
    have e1 := b64Val_b64Char _ (show a / 4 < 64 by omega)
    have e2 := b64Val_b64Char _ (show a % 4 * 16 + b / 16 < 64 by omega)
    have e3 := b64Val_b64Char _ (show b % 16 * 4 + c / 64 < 64 by omega)
    have e4 := b64Val_b64Char _ (show c % 64 < 64 by omega)
    have hne3 := b64Char_ne_pad _ (show b % 16 * 4 + c / 64 < 64 by omega)
    have hne4 := b64Char_ne_pad _ (show c % 64 < 64 by omega)
    by_cases hnil : rest = []
    · subst hnil
      simp [b64encode, b64decode, e1, e2, e3, e4, hne3, hne4]
      omega
    · rcases henc : b64encode rest with _ | ⟨x, xs⟩
      · exact absurd henc (b64encode_ne_nil rest hnil)
      · have ihr := ih hrest
        rw [henc] at ihr
        simp [b64encode, b64decode, henc, e1, e2, e3, e4, ihr]
        omega

theorem asciiDecode_asciiEncode (cs : List Char) (h : ∀ c ∈ cs, c.toNat < 128) :
    asciiDecode (asciiEncode cs) = some cs := by
  induction cs with
  | nil => rfl
  | cons c cs ih =>
    have hc : c.toNat < 128 := h c (List.mem_cons_self c cs)
    have hcs : ∀ x ∈ cs, x.toNat < 128 := fun x hx => h x (List.mem_cons_of_mem c hx)
    simp only [asciiEncode, List.map_cons, asciiDecode, List.mapM_cons, hc, if_true,
      Char.ofNat_toNat]
    simp only [asciiEncode, asciiDecode] at ih
    rw [ih hcs]
    rfl

theorem asciiEncode_lt_256 (cs : List Char) (h : ∀ c ∈ cs, c.toNat < 128) :
    ∀ b ∈ asciiEncode cs, b < 256 := by
  intro b hb
  rcases List.mem_map.mp hb with ⟨c, hc, rfl⟩
  exact Nat.lt_trans (h c hc) (by omega)

theorem stripPrefixChars_append (p cs : List Char) :
    stripPrefixChars p (p ++ cs) = some cs := by
  induction p with
  | nil => rfl
  | cons x xs ih => simp [stripPrefixChars, ih]

theorem takeWhile_append_all {p : Char → Bool} {xs ys : List Char}
    (h : ∀ x ∈ xs, p x = true) :
    (xs ++ ys).takeWhile p = xs ++ ys.takeWhile p := by
  induction xs with
  | nil => rfl
  | cons x xs ih =>
    have hx : p x = true := h x (List.mem_cons_self x xs)
    have hxs : ∀ y ∈ xs, p y = true := fun y hy => h y (List.mem_cons_of_mem x hy)
    simp [List.takeWhile_cons, hx, ih hxs]

theorem dropWhile_append_all {p : Char → Bool} {xs ys : List Char}
    (h : ∀ x ∈ xs, p x = true) :
    (xs ++ ys).dropWhile p = ys.dropWhile p := by
  induction xs with
  | nil => rfl
  | cons x xs ih =>
    have hx : p x = true := h x (List.mem_cons_self x xs)
    have hxs : ∀ y ∈ xs, p y = true := fun y hy => h y (List.mem_cons_of_mem x hy)
    simp [List.dropWhile_cons, hx, ih hxs]

theorem tag_chars_ne_quote (t : EventLogCursorType) :
    ∀ c ∈ t.toTag.data, (c != '"') = true := by
  cases t <;> decide

theorem intRepr_ne_closeBrace (v : Int) :
    ∀ c ∈ intRepr v, (c != closeBraceChar) = true := by
  intro c hc
  unfold intRepr at hc
  by_cases hv : v < 0
  · rw [if_pos hv] at hc
    rcases List.mem_cons.mp hc with rfl | hmem
    · decide
    · have := natRepr_isDigit hmem
      simp only [bne_iff_ne, ne_eq]
      intro hcc
      subst hcc
      revert this
      decide
  · rw [if_neg hv] at hc
    have := natRepr_isDigit hc
    simp only [bne_iff_ne, ne_eq]
    intro hcc
    subst hcc
    revert this
    decide

theorem parseTagValue_dumps (t : EventLogCursorType) (v : Int) :
    parseTagValue (jsonDumpsTagValue t.toTag v) = some (t.toTag, v) := by
  unfold jsonDumpsTagValue parseTagValue
  simp only [List.append_assoc]
  rw [stripPrefixChars_append]
  simp only [Option.bind_eq_bind, Option.some_bind]
  have htake : List.takeWhile (fun c => c != '"')
      (jsonMidChars ++ (intRepr v ++ [closeBraceChar])) = [] := rfl
  have hdrop : List.dropWhile (fun c => c != '"')
      (jsonMidChars ++ (intRepr v ++ [closeBraceChar]))
      = jsonMidChars ++ (intRepr v ++ [closeBraceChar]) := rfl
  have h1 : List.takeWhile (fun c => c != closeBraceChar) [closeBraceChar] = [] := rfl
  have h2 : List.dropWhile (fun c => c != closeBraceChar) [closeBraceChar]
      = [closeBraceChar] := rfl
  have hmk : String.mk t.toTag.data = t.toTag := by cases t <;> rfl
  simp only [takeWhile_append_all (tag_chars_ne_quote t),
    dropWhile_append_all (tag_chars_ne_quote t), htake, hdrop, List.append_nil,
    stripPrefixChars_append, Option.some_bind,
    takeWhile_append_all (intRepr_ne_closeBrace v),
    dropWhile_append_all (intRepr_ne_closeBrace v), h1, h2]
  simp [parseInt_intRepr, hmk]

theorem jsonDumps_ascii (t : EventLogCursorType) (v : Int) :
    ∀ c ∈ jsonDumpsTagValue t.toTag v, c.toNat < 128 := by
  intro c hc
  unfold jsonDumpsTagValue at hc
  simp only [List.append_assoc, List.mem_append, List.mem_singleton] at hc
  rcases hc with hc | hc | hc | hc | rfl
  · exact (by decide : ∀ x ∈ jsonHeadChars, x.toNat < 128) c hc
  · cases t
    · exact (by decide : ∀ x ∈ "OFFSET".data, x.toNat < 128) c hc
    · exact (by decide : ∀ x ∈ "STORAGE_ID".data, x.toNat < 128) c hc
  · exact (by decide : ∀ x ∈ jsonMidChars, x.toNat < 128) c hc
  · unfold intRepr at hc
    by_cases hv : v < 0
    · rw [if_pos hv] at hc
      rcases List.mem_cons.mp hc with rfl | hmem
      · decide
      · have := natRepr_isDigit hmem
        omega
    · rw [if_neg hv] at hc
      have := natRepr_isDigit hc
      omega
  · decide

theorem parse_to_string (c : EventLogCursor) :
    EventLogCursor.parse c.to_string = some c := by
  obtain ⟨t, v⟩ := c
  unfold EventLogCursor.to_string EventLogCursor.parse decodeStages
  have hdata : (String.mk (b64encode (asciiEncode (jsonDumpsTagValue
      (EventLogCursor.mk t v).cursor_type.toTag (EventLogCursor.mk t v).value)))).data
      = b64encode (asciiEncode (jsonDumpsTagValue t.toTag v)) := rfl
  rw [hdata, b64_roundtrip _ (asciiEncode_lt_256 _ (jsonDumps_ascii t v))]
  simp only [Option.bind_eq_bind, Option.some_bind]
  rw [asciiDecode_asciiEncode _ (jsonDumps_ascii t v)]
  simp only [Option.some_bind]
  rw [parseTagValue_dumps]
  simp only [Option.some_bind]
  cases t <;> rfl

/-- C1 (counterexample): the claim asserts a decode/encode round trip for
THREE cursor variants including `RunSharded`, but the codec's tagged union has
only the tags `OFFSET` and `STORAGE_ID`: the `Enum` lookup rejects a
`RUN_SHARDED` tag, so the canonical tagged-union token carrying that tag fails
to decode — no third variant round-trips.  (`RunShardedEventsCursor` is a
separate filter-cursor type with no string serialization.) -/
theorem claim_C1_counterexample :
    EventLogCursorType.ofTag "RUN_SHARDED" = none
    ∧ EventLogCursor.parse
        (String.mk (b64encode (asciiEncode (jsonDumpsTagValue "RUN_SHARDED" 5)))) = none := by
  constructor
  · rfl
  · decide

/-- C1 (amended): for the two variants the cursor codec has (`OFFSET`,
`STORAGE_ID`), decoding the encoded string form returns a cursor equal to the
original: `EventLogCursor.parse c.to_string = some c` for every
`EventLogCursor` value `c`. -/
theorem claim_C1_roundtrip (c : EventLogCursor) :
    EventLogCursor.parse c.to_string = some c :=
  parse_to_string c

/-- C4: `offset()` on a cursor whose type is not `OFFSET` fails with
`InvariantViolation`; on an `OFFSET` cursor with a negative value it returns 0
(negative offsets are clamped to zero); `storage_id()` on a cursor whose type
is not `STORAGE_ID` fails with `InvariantViolation`. -/
theorem claim_C4_accessors :
    (∀ c : EventLogCursor, c.cursor_type ≠ EventLogCursorType.OFFSET →
      c.offset = .error .invariantViolation)
    ∧ (∀ v : Int, v < 0 →
      (EventLogCursor.mk EventLogCursorType.OFFSET v).offset = .ok 0)
    ∧ (∀ c : EventLogCursor, c.cursor_type ≠ EventLogCursorType.STORAGE_ID →
      c.storage_id = .error .invariantViolation) := by
  refine ⟨?_, ?_, ?_⟩
  · intro c h
    unfold EventLogCursor.offset
    rw [if_neg h]
  · intro v hv
    unfold EventLogCursor.offset
    rw [if_pos rfl]
    have : max 0 v = 0 := by omega
    rw [this]
  · intro c h
    unfold EventLogCursor.storage_id
    rw [if_neg h]

/-- C4 (witness): the three parts of `claim_C4_accessors` evaluated at
concrete cursors. -/
theorem claim_C4_witness :
    (EventLogCursor.mk EventLogCursorType.STORAGE_ID 7).offset
      = .error .invariantViolation
    ∧ (EventLogCursor.mk EventLogCursorType.OFFSET (-3)).offset = .ok 0
    ∧ (EventLogCursor.mk EventLogCursorType.OFFSET 7).storage_id
      = .error .invariantViolation :=
  ⟨claim_C4_accessors.1 _ (by decide), claim_C4_accessors.2.1 (-3) (by decide),
    claim_C4_accessors.2.2 _ (by decide)⟩

/-- C5: every string rejected by the decode pipeline's parsing stages
(`base64` decode, byte decode, reading the `json` tagged-union shape), and
every string that parses but whose tag is not a recognized cursor type, fails
to decode; the spec-level `decode` surfaces this as the `MalformedCursor`
error kind. -/
theorem claim_C5_malformed (s : String) :
    (decodeStages s = none → decodeCursor s = .error .malformedCursor)
    ∧ (∀ tag v, decodeStages s = some (tag, v) →
        EventLogCursorType.ofTag tag = none →
        decodeCursor s = .error .malformedCursor) := by
  constructor
  · intro h
    unfold decodeCursor EventLogCursor.parse
    rw [h]
    rfl
  · intro tag v hs ht
    unfold decodeCursor EventLogCursor.parse
    rw [hs]
    simp [ht]

/-- C5 (witness): `claim_C5_malformed` applied to a string that is not valid
base64 and to a well-formed token whose tag `FOO` is not a cursor type. -/
theorem claim_C5_witness :
    decodeCursor "!!!" = .error .malformedCursor
    ∧ decodeCursor (String.mk (b64encode (asciiEncode (jsonDumpsTagValue "FOO" 1))))
      = .error .malformedCursor :=
  ⟨(claim_C5_malformed "!!!").1 (by decide),
    (claim_C5_malformed _).2 "FOO" 1 (by decide) (by decide)⟩

/-- C2: a filter whose `asset_partitions` field is set while its `asset_key`
field is absent fails the general predicate query (`get_event_records`, the
spec's `query_filtered`) with `InvalidFilter`. -/
theorem claim_C2_invalid_filter (log : List EventLogRecord) (f : EventRecordsFilter)
    (ps : List String) (limit : Option Int) (ascending : Bool)
    (hp : f.asset_partitions = some ps) (hk : f.asset_key = none) :
    get_event_records log (some f) limit ascending = .error .invalidFilter := by
  simp only [get_event_records]
  rw [if_pos ⟨by simp [hp], by simp [hk]⟩]

/-- C2 (witness): `EventRecordsFilter(asset_partitions=["p1"])` — constructed
through the embedded constructor, with no asset key — makes
`get_event_records` fail with `InvalidFilter`. -/
theorem claim_C2_witness :
    get_event_records []
      (some (mkEventRecordsFilter none none (some ["p1"]) none none none none).1)
      none false
      = .error .invalidFilter :=
  claim_C2_invalid_filter [] _ ["p1"] none false rfl rfl

/-- C3: a legacy integer cursor `n ≥ 0` passed to `get_logs_for_run` is
reinterpreted as the offset cursor `Offset(n+1)` before delegating to
`get_records_for_run`: the call equals the call with the encoded string of
`EventLogCursor.from_offset (n + 1)` (for every backend `grfr`), and
`from_offset (n + 1)` is the `OFFSET` cursor of value `n + 1`. -/
theorem claim_C3_legacy_cursor
    (grfr : String → Option String → Option (List DagsterEventType) → Option Int →
      EventLogConnection)
    (run_id : String) (n : Int) (hn : 0 ≤ n)
    (of_type : Option (List DagsterEventType)) (limit : Option Int) :
    get_logs_for_run grfr run_id (some (.inl n)) of_type limit
      = get_logs_for_run grfr run_id
          (some (.inr (EventLogCursor.from_offset (n + 1)).to_string)) of_type limit
    ∧ EventLogCursor.from_offset (n + 1)
      = ⟨EventLogCursorType.OFFSET, n + 1⟩ :=
  ⟨rfl, rfl⟩

/-- C3 (witness): `claim_C3_legacy_cursor` at the legacy cursor 0 against a
concrete backend. -/
theorem claim_C3_witness :
    get_logs_for_run grfrEmpty "r" (some (.inl 0)) none none
      = get_logs_for_run grfrEmpty "r"
          (some (.inr (EventLogCursor.from_offset (0 + 1)).to_string)) none none
    ∧ EventLogCursor.from_offset (0 + 1)
      = ⟨EventLogCursorType.OFFSET, 0 + 1⟩ :=
  claim_C3_legacy_cursor grfrEmpty "r" 0 (by decide) none none

/-- C6: constructing an `EventRecordsFilter` with no event type succeeds and
emits exactly the deprecation warning rather than raising an error, and the
warning does not change the constructed filter's fields (they are exactly the
arguments given); with an event type no warning is emitted. -/
theorem claim_C6_deprecation (et : DagsterEventType) (asset_key : Option AssetKey)
    (asset_partitions : Option (List String))
    (after_cursor before_cursor : Option (Int ⊕ RunShardedEventsCursor))
    (after_timestamp before_timestamp : Option Int) :
    (mkEventRecordsFilter none asset_key asset_partitions after_cursor before_cursor
        after_timestamp before_timestamp).1
      = ⟨none, asset_key, asset_partitions, after_cursor, before_cursor,
          after_timestamp, before_timestamp⟩
    ∧ (mkEventRecordsFilter none asset_key asset_partitions after_cursor before_cursor
        after_timestamp before_timestamp).2
      = ["The use of EventRecordsFilter without an event type is deprecated and will begin erroring starting in 0.15.0"]
    ∧ (mkEventRecordsFilter (some et) asset_key asset_partitions after_cursor before_cursor
        after_timestamp before_timestamp).1
      = ⟨some et, asset_key, asset_partitions, after_cursor, before_cursor,
          after_timestamp, before_timestamp⟩
    ∧ (mkEventRecordsFilter (some et) asset_key asset_partitions after_cursor before_cursor
        after_timestamp before_timestamp).2 = [] :=
  ⟨rfl, rfl, rfl, rfl⟩

/-- C8 (counterexample): with `step_keys = []` — given, but empty — the code
does not restrict the log (`if step_keys:` is false for an empty sequence),
so the aggregation sees the whole run log, while the claim's restriction
"events whose step identifier is in step_keys" would leave it no events:
counting events as the aggregation tells the two apart. -/
theorem claim_C8_counterexample :
    get_step_stats_for_run (fun _ l => l.length) grfrOne "r" (some [])
      ≠ get_step_stats_claimed (fun _ l => l.length) grfrOne "r" (some []) := by
  decide

/-- C8 (amended): `get_stats_for_run` equals the reference aggregation applied
to the full run log `get_logs_for_run(run_id)`; `get_step_stats_for_run` with
no `step_keys` aggregates the full log, and with a NONEMPTY `step_keys` first
restricts the log to events whose step identifier is in `step_keys` — exactly
as the claim says — while an empty `step_keys` sequence is treated as absent
(Python truthiness). -/
theorem claim_C8_stats {β γ : Type}
    (buildStats : String → List EventLogEntry → β)
    (buildStepStats : String → List EventLogEntry → γ)
    (grfr : String → Option String → Option (List DagsterEventType) → Option Int →
      EventLogConnection)
    (run_id k : String) (ks : List String) :
    get_stats_for_run buildStats grfr run_id
      = buildStats run_id (get_logs_for_run grfr run_id none none none)
    ∧ get_step_stats_for_run buildStepStats grfr run_id none
      = buildStepStats run_id (get_logs_for_run grfr run_id none none none)
    ∧ get_step_stats_for_run buildStepStats grfr run_id (some (k :: ks))
      = buildStepStats run_id
          ((get_logs_for_run grfr run_id none none none).filter (stepKeysPred (k :: ks)))
    ∧ get_step_stats_for_run buildStepStats grfr run_id (some (k :: ks))
      = get_step_stats_claimed buildStepStats grfr run_id (some (k :: ks)) :=
  ⟨rfl, rfl, rfl, rfl⟩

theorem prefixStage_eq (px : Option (List String)) (l : List AssetKey) :
    applyPrefixFilter px l = claimedPrefixStage px l := by
  match px with
  | none => rfl
  | some (p :: ps) => rfl
  | some [] =>
    symm
    apply List.filter_eq_self.mpr
    intro a _
    simp

theorem cursorStage_eq (cursor : Option String) (l : List AssetKey) :
    applyCursorSkip cursor l = claimedCursorStage cursor l := by
  match cursor with
  | none => rfl
  | some s =>
    by_cases hs : s = ""
    · subst hs
      rfl
    · simp only [applyCursorSkip, claimedCursorStage]
      rw [if_neg hs]

theorem limitStage_eq (limit : Option Int) (l : List AssetKey)
    (hl : ∀ m, limit = some m → 0 < m) :
    applyKeyLimit limit l = claimedLimitStage limit l := by
  match limit with
  | none => rfl
  | some m =>
    have hm : 0 < m := hl m rfl
    simp only [applyKeyLimit, claimedLimitStage]
    rw [if_neg (by omega), if_neg (by omega)]

/-- C7 (counterexample): the claim's pipeline truncates whenever a limit is
given, but the code treats a falsy limit as absent: with `limit = 0` the
default implementation returns the full filtered list, not a list of at most
0 keys. -/
theorem claim_C7_counterexample :
    get_asset_keys [AssetKey.mk ["a"]] none (some 0) none
      ≠ get_asset_keys_claimed [AssetKey.mk ["a"]] none (some 0) none := by
  decide

/-- C7 (amended): whenever every given limit is positive, the default
`get_asset_keys` returns exactly the claim's pipeline — sort all keys
lexicographically by string form, keep keys whose path starts with the prefix
when one is given, drop every key up to and including the cursor key when the
cursor names a key of the filtered list, truncate to at most `limit` keys; a
limit of 0 (Python-falsy) is instead treated as absent. -/
theorem claim_C7_default_get_asset_keys (keys : List AssetKey)
    (px : Option (List String)) (cursor : Option String) (limit : Option Int)
    (hl : ∀ m, limit = some m → 0 < m) :
    get_asset_keys keys px limit cursor = get_asset_keys_claimed keys px limit cursor := by
  unfold get_asset_keys get_asset_keys_claimed
  rw [prefixStage_eq, cursorStage_eq, limitStage_eq _ _ hl]

/-- C7 (witness): `claim_C7_default_get_asset_keys` evaluated with two keys,
a prefix, a positive limit. -/
theorem claim_C7_witness :
    get_asset_keys [AssetKey.mk ["b"], AssetKey.mk ["a"]] (some ["a"]) (some 1) none
      = get_asset_keys_claimed [AssetKey.mk ["b"], AssetKey.mk ["a"]]
          (some ["a"]) (some 1) none :=
  claim_C7_default_get_asset_keys _ _ _ _
    (by intro m hm; simp only [Option.some_inj] at hm; omega)

/-- C9: in the default `get_asset_keys` a limit of 0 does not truncate — the
call with `limit = 0` returns the full filtered key list, the same result as
the call with no limit — while for every positive limit the result has at
most `limit` keys. -/
theorem claim_C9_limit_zero (keys : List AssetKey) (px : Option (List String))
    (cursor : Option String) :
    get_asset_keys keys px (some 0) cursor = get_asset_keys keys px none cursor
    ∧ ∀ m : Int, 0 < m →
      (get_asset_keys keys px (some m) cursor).length ≤ m.toNat := by
  constructor
  · rfl
  · intro m hm
    unfold get_asset_keys
    simp only [applyKeyLimit]
    rw [if_neg (by omega), if_neg (by omega)]
    simp [List.length_take]

/-- C9 (witness): `claim_C9_limit_zero` evaluated with two keys, at limit 0
and at limit 1. -/
theorem claim_C9_witness :
    get_asset_keys [AssetKey.mk ["a"], AssetKey.mk ["b"]] none (some 0) none
      = get_asset_keys [AssetKey.mk ["a"], AssetKey.mk ["b"]] none none none
    ∧ (get_asset_keys [AssetKey.mk ["a"], AssetKey.mk ["b"]] none (some 1) none).length
      ≤ (1 : Int).toNat :=
  ⟨(claim_C9_limit_zero _ none none).1, (claim_C9_limit_zero _ none none).2 1 (by decide)⟩

/-- C10: when the supplied cursor string does not decode to an asset key
present in the sorted, prefix-filtered key list, the cursor is silently
ignored: no error, and the result is exactly the result of the call without a
cursor. -/
theorem claim_C10_cursor_ignored (keys : List AssetKey) (px : Option (List String))
    (limit : Option Int) (s : String)
    (h : ∀ ca, AssetKey.from_db_string s = some ca →
      ca ∉ applyPrefixFilter px (sortedAssetKeys keys)) :
    get_asset_keys keys px limit (some s) = get_asset_keys keys px limit none := by
  unfold get_asset_keys
  congr 1
  by_cases hs : s = ""
  · subst hs
    rfl
  · simp only [applyCursorSkip]
    rw [if_neg hs]
    cases hdb : AssetKey.from_db_string s with
    | none => rfl
    | some ca =>
      have hmem := h ca hdb
      simp [hmem]

/-- C10 (witness): `claim_C10_cursor_ignored` at a cursor decoding to a key
(`["zzz"]`) that is not in the list. -/
theorem claim_C10_witness :
    get_asset_keys [AssetKey.mk ["a"]] none none (some "zzz")
      = get_asset_keys [AssetKey.mk ["a"]] none none none :=
  claim_C10_cursor_ignored [AssetKey.mk ["a"]] none none "zzz"
    (by
      intro ca hca
      rw [show AssetKey.from_db_string "zzz" = some (AssetKey.mk ["zzz"]) from rfl,
        Option.some_inj] at hca
      subst hca
      decide)
